import Mathlib

/-
Verification of `.scripts/readme.py` (dotfiles documentation viewer).

Python strings are modelled as `List Char` (`Str`), i.e. sequences of code
points, and each Python string operation used by the program is given a
faithful executable counterpart below (`splitCh` for `str.split(sep)` with a
one-character separator, `joinCh` for `sep.join`, `replaceC` for
`str.replace(old, new)` with a one-character pattern, `pyStrip` for
`str.strip()` restricted to ASCII whitespace, `stripChars` for
`str.strip(chars)`, `pyStem`/`pySuffix` for `pathlib.PurePath.stem/.suffix`
applied to a file name, and so on).  Glob patterns of the shape `NAME*`
match exactly the directory entries having `NAME` as a prefix, so a
directory is modelled as the list of its entry names and `glob` as a prefix
filter.  Filesystem and subprocess effects are modelled by explicit
parameters (an abstract `FS`, read outcomes, a pager outcome).
-/

/-- A Python string: a sequence of code points. -/
abbrev Str := List Char

/-- Embed a Lean string literal as a `Str`. -/
def str (s : String) : Str := s.data

/-- Python `s.split(c)` for a one-character separator: split at every
occurrence, keeping empty pieces (`"".split(c) == [""]`). -/
def splitCh (c : Char) : Str → List Str
  | [] => [[]]
  | x :: xs =>
    if x = c then [] :: splitCh c xs
    else
      match splitCh c xs with
      | [] => [[x]]
      | y :: ys => (x :: y) :: ys

/-- Python `c.join(pieces)` for a one-character separator. -/
def joinCh (c : Char) : List Str → Str
  | [] => []
  | [p] => p
  | p :: ps => p ++ c :: joinCh c ps

/-- Python `s.replace(old, new)` for a one-character `old`: every occurrence
of the character is replaced, in one left-to-right pass. -/
def replaceC (c : Char) (rep : Str) : Str → Str
  | [] => []
  | x :: xs => (if x = c then rep else [x]) ++ replaceC c rep xs

/-- The ASCII whitespace characters stripped by Python `str.strip()`. -/
def isPySpace (c : Char) : Bool :=
  c = ' ' || c = '\t' || c = '\n' || c = '\r' || c = '\x0b' || c = '\x0c'

/-- Python `s.strip()` (ASCII whitespace). -/
def pyStrip (s : Str) : Str :=
  ((s.dropWhile isPySpace).reverse.dropWhile isPySpace).reverse

/-- Python `s.strip(chars)`: remove every leading and trailing character
belonging to `chs`. -/
def stripChars (chs : List Char) (s : Str) : Str :=
  ((s.dropWhile (· ∈ chs)).reverse.dropWhile (· ∈ chs)).reverse

/-- Python `s.upper()` (ASCII letters, the only case arising here). -/
def pyUpper (s : Str) : Str := s.map Char.toUpper

/-- Python `s.lower()` (ASCII letters, the only case arising here). -/
def pyLower (s : Str) : Str := s.map Char.toLower

/-- `pathlib.PurePath(name).stem` for a plain file name: the name without
its final suffix; the suffix starts at the last dot, provided that dot is
neither the first character nor the last one. -/
def pyStem (name : Str) : Str :=
  let aft := (name.reverse.takeWhile (fun c => c ≠ '.')).length
  if aft = name.length then name
  else
    let i := name.length - 1 - aft
    if 0 < i ∧ i < name.length - 1 then name.take i else name

/-- `pathlib.PurePath(name).suffix` for a plain file name. -/
def pySuffix (name : Str) : Str :=
  let aft := (name.reverse.takeWhile (fun c => c ≠ '.')).length
  if aft = name.length then []
  else
    let i := name.length - 1 - aft
    if 0 < i ∧ i < name.length - 1 then name.drop i else []

/-- Python string comparison `s <= t`: lexicographic on code points. -/
def strLe : Str → Str → Bool
  | [], _ => true
  | _ :: _, [] => false
  | a :: as, b :: bs =>
    if a.toNat < b.toNat then true
    else if b.toNat < a.toNat then false
    else strLe as bs

/-- Left-justify to width `n` with spaces, Python `f"{s:<15}"` style
(strings already at least `n` long are unchanged). -/
def padTo (n : Nat) (s : Str) : Str := s ++ List.replicate (n - s.length) ' '

namespace Colors

def RESET : Str := str "\x1b[0m"

def BOLD : Str := str "\x1b[1m"

def RED : Str := str "\x1b[91m"

def GREEN : Str := str "\x1b[92m"

def YELLOW : Str := str "\x1b[93m"

def BLUE : Str := str "\x1b[94m"

def PURPLE : Str := str "\x1b[95m"

def CYAN : Str := str "\x1b[96m"

end Colors

-- Basic facts about the string infrastructure.

theorem splitCh_ne_nil (c : Char) : ∀ (l : Str), splitCh c l ≠ []
  | [] => by simp [splitCh]
  | x :: xs => by
    simp only [splitCh]
    split
    · simp
    · cases h : splitCh c xs with
      | nil => simp
      | cons y ys => simp

theorem splitCh_pieces_no_sep (c : Char) :
    ∀ (l : Str), ∀ p ∈ splitCh c l, c ∉ p := by
  intro l
  induction l with
  | nil => intro p hp; simp [splitCh] at hp; simp [hp]
  | cons x xs ih =>
    intro p hp
    simp only [splitCh] at hp
    by_cases hx : x = c
    · simp [hx] at hp
      rcases hp with h | h
      · simp [h]
      · exact ih p h
    · simp only [if_neg hx] at hp
      cases h : splitCh c xs with
      | nil => exact absurd h (splitCh_ne_nil c xs)
      | cons y ys =>
        rw [h] at hp
        rcases List.mem_cons.mp hp with h1 | h1
        · subst h1
          intro hmem
          rcases List.mem_cons.mp hmem with h2 | h2
          · exact hx h2.symm
          · exact ih y (h ▸ List.mem_cons_self y ys) h2
        · exact ih p (h ▸ List.mem_cons_of_mem y h1)

theorem splitCh_of_not_mem {c : Char} {l : Str} (h : c ∉ l) :
    splitCh c l = [l] := by
  induction l with
  | nil => rfl
  | cons x xs ih =>
    simp only [List.mem_cons, not_or] at h
    have hxc : ¬ x = c := fun he => h.1 he.symm
    simp only [splitCh, if_neg hxc, ih h.2]

theorem splitCh_append_sep (c : Char) (a : Str) (rest : Str) (ha : c ∉ a) :
    splitCh c (a ++ c :: rest) = a :: splitCh c rest := by
  induction a with
  | nil => simp [splitCh]
  | cons x xs ih =>
    simp only [List.mem_cons, not_or] at ha
    have hxc : ¬ x = c := fun he => ha.1 he.symm
    have hih := ih ha.2
    simp only [List.cons_append, splitCh, if_neg hxc, List.append_eq, hih]

theorem splitCh_joinCh (c : Char) :
    ∀ (ls : List Str), ls ≠ [] → (∀ p ∈ ls, c ∉ p) →
      splitCh c (joinCh c ls) = ls := by
  intro ls
  induction ls with
  | nil => intro h; exact absurd rfl h
  | cons p ps ih =>
    intro _ hall
    cases ps with
    | nil =>
      simp only [joinCh]
      exact splitCh_of_not_mem (hall p (List.mem_cons_self p []))
    | cons q qs =>
      show splitCh c (p ++ c :: joinCh c (q :: qs)) = _
      rw [splitCh_append_sep c p _ (hall p (List.mem_cons_self p _))]
      rw [ih (by simp) (fun r hr => hall r (List.mem_cons_of_mem p hr))]

theorem replaceC_eq_flatMap (c : Char) (rep : Str) :
    ∀ (l : Str), replaceC c rep l = l.flatMap (fun x => if x = c then rep else [x])
  | [] => rfl
  | x :: xs => by
    simp only [replaceC, List.flatMap_cons, replaceC_eq_flatMap c rep xs]

theorem strLe_total : ∀ (a b : Str), strLe a b = true ∨ strLe b a = true
  | [], _ => Or.inl rfl
  | _ :: _, [] => Or.inr rfl
  | a :: as, b :: bs => by
    simp only [strLe]
    rcases Nat.lt_trichotomy a.toNat b.toNat with h | h | h
    · left; simp [h]
    · have h1 : ¬ a.toNat < b.toNat := by omega
      have h2 : ¬ b.toNat < a.toNat := by omega
      simp only [if_neg h1, if_neg h2]
      exact strLe_total as bs
    · right; simp [h]

theorem strLe_cons_iff (a b : Char) (as bs : Str) :
    strLe (a :: as) (b :: bs) = true ↔
      a.toNat < b.toNat ∨ (a.toNat = b.toNat ∧ strLe as bs = true) := by
  simp only [strLe]
  rcases Nat.lt_trichotomy a.toNat b.toNat with h | h | h
  · simp only [if_pos h, true_iff]
    exact Or.inl h
  · have h1 : ¬ a.toNat < b.toNat := by omega
    have h2 : ¬ b.toNat < a.toNat := by omega
    simp only [if_neg h1, if_neg h2]
    constructor
    · intro hs; exact Or.inr ⟨h, hs⟩
    · rintro (hlt | ⟨_, hs⟩)
      · omega
      · exact hs
  · have h1 : ¬ a.toNat < b.toNat := by omega
    simp only [if_neg h1, if_pos h]
    constructor
    · intro hf; exact absurd hf (by simp)
    · rintro (hlt | ⟨heq, _⟩) <;> omega

theorem strLe_trans :
    ∀ (a b c : Str), strLe a b = true → strLe b c = true → strLe a c = true
  | [], _, _ => by intro _ _; rfl
  | _ :: _, [], _ => by intro h _; simp [strLe] at h
  | _ :: _, _ :: _, [] => by intro _ h; simp [strLe] at h
  | a :: as, b :: bs, c :: cs => by
    intro h1 h2
    rcases (strLe_cons_iff a b as bs).mp h1 with hl | ⟨he, hs⟩ <;>
      rcases (strLe_cons_iff b c bs cs).mp h2 with hl2 | ⟨he2, hs2⟩
    · exact (strLe_cons_iff a c as cs).mpr (Or.inl (by omega))
    · exact (strLe_cons_iff a c as cs).mpr (Or.inl (by omega))
    · exact (strLe_cons_iff a c as cs).mpr (Or.inl (by omega))
    · exact (strLe_cons_iff a c as cs).mpr
        (Or.inr ⟨by omega, strLe_trans as bs cs hs hs2⟩)

-- ## File Locator (`find_doc_files`)

/-- The eight glob patterns of `find_doc_files`, in source order. -/
def doc_patterns : List Str :=
  [str "README*", str "INSTALL*", str "CONFIG*", str "CHEATSHEET*",
   str "USAGE*", str "QUICKSTART*", str "SETUP*", str "GETTING_STARTED*"]

/-- Each pattern is a literal followed by `*`; `*` matches any (possibly
empty) run of characters of an entry name, so `directory.glob(pat)` selects
exactly the entries having the literal part as a prefix. -/
def globMatches (pat : Str) (name : Str) : Bool :=
  pat.dropLast.isPrefixOf name

/-- `directory.glob(pat)`: the entries of the directory matching `pat`
(a directory is modelled as the list of its entry names). -/
def globFiles (dir : List Str) (pat : Str) : List Str :=
  dir.filter (globMatches pat)

/-- The priority list of `find_doc_files`. -/
def priority_order : List Str :=
  [str "README", str "INSTALL", str "QUICKSTART", str "SETUP",
   str "CONFIG", str "USAGE", str "CHEATSHEET"]

/-- The sort key of `find_doc_files.sort_key`: the index of the upper-cased
stem in `priority_order` when present (else `len(priority_order)`), paired
with the file name. -/
def sort_key (name : Str) : Nat × Str :=
  if pyUpper (pyStem name) ∈ priority_order then
    (priority_order.indexOf (pyUpper (pyStem name)), name)
  else (priority_order.length, name)

/-- Python tuple comparison `(i, s) <= (j, t)`: lexicographic. -/
def keyLe (x y : Nat × Str) : Bool :=
  if x.1 < y.1 then true
  else if y.1 < x.1 then false
  else strLe x.2 y.2

/-- The comparison `sort_key(f) <= sort_key(g)` used by `sorted`. -/
def fileLe (f g : Str) : Prop := keyLe (sort_key f) (sort_key g) = true

instance : DecidableRel fileLe := fun f g => by
  unfold fileLe; infer_instance

/-- `find_doc_files`: glob each pattern in order, concatenate the matches,
and sort by `sort_key`.  (`sort_key` contains the full file name, so it is
injective on distinct entries and any sorting algorithm yields the same
list; `insertionSort` is moreover stable, like Python's `sorted`.) -/
def find_doc_files (dir : List Str) : List Str :=
  List.insertionSort fileLe (doc_patterns.flatMap (fun pat => globFiles dir pat))

theorem keyLe_iff (x y : Nat × Str) :
    keyLe x y = true ↔ x.1 < y.1 ∨ (x.1 = y.1 ∧ strLe x.2 y.2 = true) := by
  unfold keyLe
  rcases Nat.lt_trichotomy x.1 y.1 with h | h | h
  · simp only [if_pos h, true_iff]; exact Or.inl h
  · have h1 : ¬ x.1 < y.1 := by omega
    have h2 : ¬ y.1 < x.1 := by omega
    simp only [if_neg h1, if_neg h2]
    constructor
    · intro hs; exact Or.inr ⟨h, hs⟩
    · rintro (hlt | ⟨_, hs⟩)
      · omega
      · exact hs
  · have h1 : ¬ x.1 < y.1 := by omega
    simp only [if_neg h1, if_pos h]
    constructor
    · intro hf; exact absurd hf (by simp)
    · rintro (hlt | ⟨heq, _⟩) <;> omega

theorem keyLe_total (x y : Nat × Str) : keyLe x y = true ∨ keyLe y x = true := by
  rcases Nat.lt_trichotomy x.1 y.1 with h | h | h
  · exact Or.inl ((keyLe_iff x y).mpr (Or.inl h))
  · rcases strLe_total x.2 y.2 with hs | hs
    · exact Or.inl ((keyLe_iff x y).mpr (Or.inr ⟨h, hs⟩))
    · exact Or.inr ((keyLe_iff y x).mpr (Or.inr ⟨h.symm, hs⟩))
  · exact Or.inr ((keyLe_iff y x).mpr (Or.inl h))

theorem keyLe_trans (x y z : Nat × Str) (h1 : keyLe x y = true)
    (h2 : keyLe y z = true) : keyLe x z = true := by
  rcases (keyLe_iff x y).mp h1 with ha | ⟨ha, hsa⟩ <;>
    rcases (keyLe_iff y z).mp h2 with hb | ⟨hb, hsb⟩
  · exact (keyLe_iff x z).mpr (Or.inl (by omega))
  · exact (keyLe_iff x z).mpr (Or.inl (by omega))
  · exact (keyLe_iff x z).mpr (Or.inl (by omega))
  · exact (keyLe_iff x z).mpr (Or.inr ⟨by omega, strLe_trans _ _ _ hsa hsb⟩)

instance : IsTotal Str fileLe :=
  ⟨fun f g => keyLe_total (sort_key f) (sort_key g)⟩

instance : IsTrans Str fileLe :=
  ⟨fun f g h => keyLe_trans (sort_key f) (sort_key g) (sort_key h)⟩

theorem filter_or_perm {α : Type} (p q : α → Bool) :
    ∀ (l : List α), (∀ x ∈ l, ¬(p x = true ∧ q x = true)) →
      (l.filter (fun x => p x || q x)).Perm (l.filter p ++ l.filter q) := by
  intro l
  induction l with
  | nil => intro _; simp
  | cons a l ih =>
    intro h
    have ha := h a (List.mem_cons_self a l)
    have hrest := fun x hx => h x (List.mem_cons_of_mem a hx)
    by_cases hp : p a = true
    · have hq : ¬ q a = true := fun hq => ha ⟨hp, hq⟩
      simp only [List.filter_cons, hp, hq, if_true, if_false, Bool.true_or,
        if_pos rfl, List.cons_append]
      exact (ih hrest).cons a
    · by_cases hq : q a = true
      · simp only [List.filter_cons, hp, hq, Bool.false_or, if_false, if_true]
        exact ((ih hrest).cons a).trans List.perm_middle.symm
      · simp only [List.filter_cons, hp, hq, Bool.false_or, if_false]
        exact ih hrest

theorem flatMap_filter_perm {α β : Type} (m : β → α → Bool) :
    ∀ (pats : List β) (l : List α),
      (∀ x ∈ l, pats.countP (fun p => m p x) ≤ 1) →
      (pats.flatMap (fun p => l.filter (m p))).Perm
        (l.filter (fun x => pats.any (fun p => m p x))) := by
  intro pats
  induction pats with
  | nil => intro l _; simp
  | cons p ps ih =>
    intro l h
    have hrest : ∀ x ∈ l, ps.countP (fun q => m q x) ≤ 1 := by
      intro x hx
      have := h x hx
      rw [List.countP_cons] at this
      omega
    have hd : ∀ x ∈ l, ¬(m p x = true ∧ ps.any (fun q => m q x) = true) := by
      intro x hx ⟨h1, h2⟩
      have hc := h x hx
      rw [List.countP_cons] at hc
      have hpos : 0 < ps.countP (fun q => m q x) :=
        List.countP_pos_iff.mpr (by simpa using List.any_eq_true.mp h2)
      have hone : (if m p x = true then 1 else 0) = 1 := if_pos h1
      rw [hone] at hc
      omega
    have step1 : ((p :: ps).flatMap (fun q => l.filter (m q))).Perm
        (l.filter (m p) ++ l.filter (fun x => ps.any (fun q => m q x))) := by
      rw [List.flatMap_cons]
      exact (ih l hrest).append_left (l.filter (m p))
    have step2 := (filter_or_perm (m p) (fun x => ps.any (fun q => m q x)) l hd).symm
    have step3 : l.filter (fun x => m p x || ps.any (fun q => m q x)) =
        l.filter (fun x => (p :: ps).any (fun q => m q x)) := by
      simp only [List.any_cons]
    exact step1.trans (step3 ▸ step2)

theorem isPrefixOf_comparable :
    ∀ (f p q : Str), p.isPrefixOf f = true → q.isPrefixOf f = true →
      p.isPrefixOf q = true ∨ q.isPrefixOf p = true
  | _, [], q => by intro _ _; left; cases q <;> rfl
  | _, p :: _, [] => by intro _ _; right; rfl
  | [], _ :: _, _ :: _ => by intro h _; simp [List.isPrefixOf] at h
  | c :: cs, a :: as, b :: bs => by
    intro h1 h2
    simp only [List.isPrefixOf, Bool.and_eq_true, beq_iff_eq] at h1 h2
    rcases isPrefixOf_comparable cs as bs h1.2 h2.2 with h | h
    · left
      simp only [List.isPrefixOf, Bool.and_eq_true, beq_iff_eq]
      exact ⟨h1.1.trans h2.1.symm, h⟩
    · right
      simp only [List.isPrefixOf, Bool.and_eq_true, beq_iff_eq]
      exact ⟨h2.1.trans h1.1.symm, h⟩

theorem countP_le_one_of_pairwise_excl {α : Type} (pr : α → Bool) :
    ∀ (l : List α), l.Pairwise (fun a b => ¬(pr a = true ∧ pr b = true)) →
      l.countP pr ≤ 1 := by
  intro l
  induction l with
  | nil => intro _; simp
  | cons a l ih =>
    intro h
    rcases List.pairwise_cons.mp h with ⟨hhead, htail⟩
    rw [List.countP_cons]
    by_cases hp : pr a = true
    · have hz : l.countP pr = 0 :=
        List.countP_eq_zero.mpr (fun b hb hq => hhead b hb ⟨hp, hq⟩)
      simp [hz, hp]
    · rw [if_neg hp]
      have := ih htail
      omega

/-- No two of the eight glob literals are prefix-comparable. -/
theorem doc_patterns_pairwise :
    doc_patterns.Pairwise (fun pa pb =>
      pa.dropLast.isPrefixOf pb.dropLast = false ∧
      pb.dropLast.isPrefixOf pa.dropLast = false) := by
  decide

/-- Every file name matches at most one of the eight glob patterns. -/
theorem globMatches_at_most_one (f : Str) :
    doc_patterns.countP (fun pat => globMatches pat f) ≤ 1 := by
  apply countP_le_one_of_pairwise_excl
  apply doc_patterns_pairwise.imp
  intro pa pb hne ⟨h1, h2⟩
  unfold globMatches at h1 h2
  rcases isPrefixOf_comparable f pa.dropLast pb.dropLast h1 h2 with h | h
  · rw [hne.1] at h; exact Bool.false_ne_true h
  · rw [hne.2] at h; exact Bool.false_ne_true h

/-- The claim's description of the primary sort key: the index of the
upper-cased, extension-stripped base name in the 7-item priority list, with
the sentinel index 7 (one past the end) for names not in the list. -/
def prioIndexSpec (name : Str) : Nat :=
  if pyUpper (pyStem name) ∈ priority_order then
    priority_order.indexOf (pyUpper (pyStem name))
  else 7

theorem sort_key_fst (name : Str) : (sort_key name).1 = prioIndexSpec name := by
  unfold sort_key prioIndexSpec
  split <;> rfl

theorem sort_key_snd (name : Str) : (sort_key name).2 = name := by
  unfold sort_key
  split <;> rfl

/-- The ordering relation the claim describes: primarily by priority index,
secondarily by the filename string. -/
def claimOrder (f g : Str) : Prop :=
  prioIndexSpec f < prioIndexSpec g ∨
    (prioIndexSpec f = prioIndexSpec g ∧ strLe f g = true)

theorem fileLe_imp_claimOrder {f g : Str} (h : fileLe f g) : claimOrder f g := by
  unfold fileLe at h
  rcases (keyLe_iff (sort_key f) (sort_key g)).mp h with h1 | ⟨h1, h2⟩
  · exact Or.inl (by rw [← sort_key_fst, ← sort_key_fst]; exact h1)
  · refine Or.inr ⟨by rw [← sort_key_fst, ← sort_key_fst]; exact h1, ?_⟩
    rw [← sort_key_snd f, ← sort_key_snd g]
    exact h2

/-- C1: `find_doc_files` returns the files matching the eight glob patterns
(as a permutation of that set of entries), sorted primarily by the index of
the upper-cased, extension-stripped base name in the 7-item priority list
(sentinel 7 for absent names) and secondarily by the filename string; a
directory containing exactly `README.md`, `INSTALL.txt`, `CHEATSHEET.md` is
listed in that order, and two files with non-priority names sort
alphabetically. -/
theorem C1_find_doc_files_sorted :
    (∀ dir : List Str,
        (find_doc_files dir).Perm
          (dir.filter (fun f => doc_patterns.any (fun pat => globMatches pat f))) ∧
        List.Pairwise claimOrder (find_doc_files dir)) ∧
    find_doc_files [str "README.md", str "INSTALL.txt", str "CHEATSHEET.md"] =
      [str "README.md", str "INSTALL.txt", str "CHEATSHEET.md"] ∧
    find_doc_files [str "READMEB.md", str "READMEA.md"] =
      [str "READMEA.md", str "READMEB.md"] := by
  refine ⟨fun dir => ⟨?_, ?_⟩, by decide, by decide⟩
  · exact (List.perm_insertionSort fileLe _).trans
      (flatMap_filter_perm globMatches doc_patterns dir
        (fun f _ => globMatches_at_most_one f))
  · exact (List.sorted_insertionSort fileLe _).imp
      (fun h => fileLe_imp_claimOrder h)

theorem nodup_countP_le_one {α : Type} [BEq α] [LawfulBEq α] :
    ∀ (l : List α), l.Nodup → ∀ (f : α), l.countP (fun x => x == f) ≤ 1 := by
  intro l
  induction l with
  | nil => intro _ f; simp
  | cons a l ih =>
    intro h f
    rcases List.pairwise_cons.mp h with ⟨hhead, htail⟩
    rw [List.countP_cons]
    by_cases ha : (a == f) = true
    · have haf : a = f := eq_of_beq ha
      have hz : l.countP (fun x => x == f) = 0 :=
        List.countP_eq_zero.mpr (fun b hb hbf =>
          hhead b hb (haf.trans (eq_of_beq hbf).symm))
      simp [hz, ha]
    · rw [if_neg ha]
      have := ih htail f
      omega

/-- C2 counterexample: the claim asserts that some directory contains a file
matching more than one of the eight glob patterns, appearing more than once
in `find_doc_files`.  This is impossible: no two pattern literals are
prefix-comparable, so no file name matches two patterns, and no entry of a
duplicate-free directory ever appears twice in the result. -/
theorem C2_counterexample :
    ¬ ∃ (dir : List Str) (f : Str),
        2 ≤ doc_patterns.countP (fun pat => globMatches pat f) ∧
        2 ≤ (find_doc_files dir).count f := by
  rintro ⟨_, f, h2, _⟩
  have := globMatches_at_most_one f
  omega

/-- C2 amended: a file name never matches more than one of the eight glob
patterns, so although `find_doc_files` performs no deduplication, each entry
of a duplicate-free directory appears at most once in its result. -/
theorem C2_no_duplicates (dir : List Str) (f : Str) (hd : dir.Nodup) :
    doc_patterns.countP (fun pat => globMatches pat f) ≤ 1 ∧
    (find_doc_files dir).count f ≤ 1 := by
  refine ⟨globMatches_at_most_one f, ?_⟩
  have hperm : (find_doc_files dir).Perm
      (dir.filter (fun g => doc_patterns.any (fun pat => globMatches pat g))) :=
    (List.perm_insertionSort fileLe _).trans
      (flatMap_filter_perm globMatches doc_patterns dir
        (fun g _ => globMatches_at_most_one g))
  rw [List.count_eq_countP, List.Perm.countP_eq _ hperm]
  calc (dir.filter (fun g => doc_patterns.any (fun pat => globMatches pat g))).countP
          (fun x => x == f)
      ≤ dir.countP (fun x => x == f) := (List.filter_sublist dir).countP_le _
    _ ≤ 1 := nodup_countP_le_one dir hd f

/-- Witness for `C2_no_duplicates` at a concrete duplicate-free directory. -/
theorem C2_no_duplicates_witness :
    ([str "README.md", str "INSTALL.txt"] : List Str).Nodup ∧
      (doc_patterns.countP (fun pat => globMatches pat (str "README.md")) ≤ 1 ∧
       (find_doc_files [str "README.md", str "INSTALL.txt"]).count (str "README.md") ≤ 1) :=
  ⟨by decide, C2_no_duplicates [str "README.md", str "INSTALL.txt"] (str "README.md") (by decide)⟩

-- ## Content Reader (`read_file`)

/-- The outcome of one attempted text read of a file under a given encoding:
success with the decoded content, a `UnicodeDecodeError` carrying the
exception message, or any other `Exception` (missing file, permissions, ...)
carrying its message. -/
inductive ReadAttempt : Type
  | ok (content : Str)
  | unicodeDecodeErr (msg : Str)
  | otherErr (msg : Str)

/-- `read_file`: try UTF-8; a `UnicodeDecodeError` falls back to Latin-1,
whose own failure of any kind yields the synthetic error string; any other
exception of the first attempt yields the synthetic error string directly.
The function is total: it always returns a string, never raises. -/
def read_file (utf8 latin1 : ReadAttempt) : Str :=
  match utf8 with
  | .ok s => s
  | .unicodeDecodeErr _ =>
    match latin1 with
    | .ok s => s
    | .unicodeDecodeErr m => str "Error reading file: " ++ m
    | .otherErr m => str "Error reading file: " ++ m
  | .otherErr m => str "Error reading file: " ++ m

/-- C3: `read_file` always returns (never raises): the UTF-8 content on a
successful primary decode; the Latin-1 content when the primary decode fails
with a `UnicodeDecodeError` and the fallback succeeds; and on any other
failure a synthetic error string, so an unreadable file renders as visible
error text instead of aborting the run. -/
theorem C3_read_file_total (utf8 latin1 : ReadAttempt) :
    (∀ s, utf8 = .ok s → read_file utf8 latin1 = s) ∧
    (∀ m s, utf8 = .unicodeDecodeErr m → latin1 = .ok s →
      read_file utf8 latin1 = s) ∧
    (∀ m, utf8 = .otherErr m →
      read_file utf8 latin1 = str "Error reading file: " ++ m) ∧
    (∀ m m2, utf8 = .unicodeDecodeErr m →
      (latin1 = .unicodeDecodeErr m2 ∨ latin1 = .otherErr m2) →
      read_file utf8 latin1 = str "Error reading file: " ++ m2) ∧
    ((∃ s, read_file utf8 latin1 = s ∧ (utf8 = .ok s ∨ latin1 = .ok s)) ∨
      ∃ m, read_file utf8 latin1 = str "Error reading file: " ++ m) := by
  refine ⟨?_, ?_, ?_, ?_, ?_⟩
  · rintro s rfl; rfl
  · rintro m s rfl rfl; rfl
  · rintro m rfl; rfl
  · rintro m m2 rfl (rfl | rfl) <;> rfl
  · cases utf8 with
    | ok s => exact Or.inl ⟨s, rfl, Or.inl rfl⟩
    | otherErr m => exact Or.inr ⟨m, rfl⟩
    | unicodeDecodeErr m =>
      cases latin1 with
      | ok s => exact Or.inl ⟨s, rfl, Or.inr rfl⟩
      | unicodeDecodeErr m2 => exact Or.inr ⟨m2, rfl⟩
      | otherErr m2 => exact Or.inr ⟨m2, rfl⟩

/-- Witness for `C3_read_file_total`: each hypothesis discharged at concrete
read outcomes. -/
theorem C3_read_file_total_witness :
    read_file (.unicodeDecodeErr (str "bad byte")) (.ok (str "contenu")) =
      str "contenu" ∧
    read_file (.otherErr (str "Permission denied")) (.ok (str "x")) =
      str "Error reading file: " ++ str "Permission denied" :=
  ⟨(C3_read_file_total (.unicodeDecodeErr (str "bad byte"))
      (.ok (str "contenu"))).2.1 (str "bad byte") (str "contenu") rfl rfl,
   (C3_read_file_total (.otherErr (str "Permission denied"))
      (.ok (str "x"))).2.2.1 (str "Permission denied") rfl⟩

-- ## HTML formatter (`format_html`)

/-- The fixed HTML document template with embedded stylesheet; the title is
the file's name and the body is the converted or escaped content. -/
def html_template (name body : Str) : Str :=
  str "\n<!DOCTYPE html>\n<html>\n<head>\n    <title>" ++ name ++
  str "</title>\n    <style>\n        body \x7b font-family: Arial, sans-serif; margin: 40px; line-height: 1.6; \x7d\n        h1, h2, h3 \x7b color: #333; \x7d\n        code \x7b background: #f4f4f4; padding: 2px 4px; border-radius: 3px; \x7d\n        pre \x7b background: #f4f4f4; padding: 10px; border-radius: 5px; overflow-x: auto; \x7d\n        blockquote \x7b border-left: 4px solid #ddd; padding-left: 20px; margin-left: 0; \x7d\n    </style>\n</head>\n<body>\n" ++
  body ++ str "\n</body>\n</html>\n"

/-- The sequential escaping of `format_html`:
`content.replace('&','&amp;').replace('<','&lt;').replace('>','&gt;')`. -/
def htmlEscape (content : Str) : Str :=
  replaceC '>' (str "&gt;") (replaceC '<' (str "&lt;") (replaceC '&' (str "&amp;") content))

/-- The file extensions delegated to the markdown renderer. -/
def markdown_exts : List Str := [str ".md", str ".markdown"]

/-- `format_html`: delegate to the markdown renderer when it is available
and the (lower-cased) extension is a recognized markup format; otherwise
escape `&`, `<`, `>`, replace each newline by `<br>` plus the newline, and
wrap in a `<pre>` block; always embed in the fixed document template titled
with the file's name.  The optional renderer is an abstract parameter. -/
def format_html (mdAvailable : Bool) (mdRender : Str → Str)
    (content name : Str) : Str :=
  let html_content :=
    if mdAvailable = true ∧ pyLower (pySuffix name) ∈ markdown_exts then
      mdRender content
    else
      str "<pre>" ++ replaceC '\n' (str "<br>\n") (htmlEscape content) ++ str "</pre>"
  html_template name html_content

/-- C4's description of the preformatted body: the escaped content wrapped
in a `<pre>` block, with no further transformation. -/
def format_html_claimC4 (content name : Str) : Str :=
  html_template name (str "<pre>" ++ htmlEscape content ++ str "</pre>")

/-- The claim's per-character escape: each original `&`, `<`, `>` replaced
exactly once, every other character kept. -/
def escapeCharOnce (c : Char) : Str :=
  if c = '&' then str "&amp;"
  else if c = '<' then str "&lt;"
  else if c = '>' then str "&gt;"
  else [c]

theorem replaceC_append (c : Char) (rep : Str) (a b : Str) :
    replaceC c rep (a ++ b) = replaceC c rep a ++ replaceC c rep b := by
  simp only [replaceC_eq_flatMap, List.flatMap_append]

/-- The three sequential replacements act as one pass: each original
character is escaped exactly once and nothing is escaped twice. -/
theorem htmlEscape_eq_flatMap (content : Str) :
    htmlEscape content = content.flatMap escapeCharOnce := by
  induction content with
  | nil => rfl
  | cons x xs ih =>
    have step : replaceC '&' (str "&amp;") (x :: xs) =
        (if x = '&' then str "&amp;" else [x]) ++ replaceC '&' (str "&amp;") xs := rfl
    unfold htmlEscape at ih ⊢
    rw [step, replaceC_append, replaceC_append, List.flatMap_cons, ih]
    congr 1
    by_cases h1 : x = '&'
    · subst h1; decide
    · by_cases h2 : x = '<'
      · subst h2; decide
      · by_cases h3 : x = '>'
        · subst h3; decide
        · simp [replaceC, h1, h2, h3, escapeCharOnce]

set_option maxRecDepth 4000 in
/-- C4 counterexample: without markdown delegation, `format_html` does not
wrap the merely-escaped content in the `<pre>` block — it additionally
replaces each newline by `<br>` followed by the newline, so on `"a\nb"` the
output differs from the claim's description. -/
theorem C4_counterexample :
    format_html false (fun s => s) (str "a\nb") (str "NOTES.txt") ≠
      format_html_claimC4 (str "a\nb") (str "NOTES.txt") := by
  decide

/-- C4 amended: without markdown delegation, `format_html` escapes each
original `&`, `<`, `>` exactly once (a single simultaneous pass, no double
escaping), then replaces each newline with `<br>` followed by the newline,
wraps the result in a `<pre>` block, and embeds it in the fixed HTML
document template whose title is the file's name. -/
theorem C4_format_html_escape (mdAvailable : Bool) (mdRender : Str → Str)
    (content name : Str)
    (h : ¬(mdAvailable = true ∧ pyLower (pySuffix name) ∈ markdown_exts)) :
    format_html mdAvailable mdRender content name =
      html_template name
        (str "<pre>" ++
          replaceC '\n' (str "<br>\n") (content.flatMap escapeCharOnce) ++
          str "</pre>") := by
  unfold format_html
  rw [if_neg h, htmlEscape_eq_flatMap]

/-- Witness for `C4_format_html_escape`: markdown unavailable, content with
all three sensitive characters. -/
theorem C4_format_html_escape_witness :
    format_html false (fun s => s) (str "a & <b>\nc") (str "README.rst") =
      html_template (str "README.rst")
        (str "<pre>" ++
          replaceC '\n' (str "<br>\n") ((str "a & <b>\nc").flatMap escapeCharOnce) ++
          str "</pre>") :=
  C4_format_html_escape false (fun s => s) (str "a & <b>\nc") (str "README.rst")
    (by decide)

-- ## Alias Extractor (`get_aliases`)

/-- The quote characters stripped from an alias command. -/
def quoteChars : List Char := ['\'', '"']

/-- One rendered alias line:
`f"  {Colors.CYAN}{alias_name.strip():<15}{Colors.RESET} {alias_cmd}"`. -/
def aliasLine (aname acmd : Str) : Str :=
  str "  " ++ Colors.CYAN ++ padTo 15 (pyStrip aname) ++ Colors.RESET ++
    str " " ++ acmd

/-- One rendered section header line. -/
def sectionLine (sect : Str) : Str :=
  Colors.BOLD ++ Colors.YELLOW ++ sect ++ Colors.RESET

/-- The line scan of `get_aliases`, with `cur` the current section
(`None` initially).  A stripped line starting with `# ` but not `##` sets
the section, emitting its header (followed by a blank line) only when it
differs from the current one; a line starting with `alias ` and containing
`=` is split at the first `=`, the name stripped of whitespace and the value
stripped of quote characters (`.strip('\'"')`); other lines are skipped. -/
def aliasesBody : List Str → Option Str → List Str
  | [], _ => []
  | l0 :: ls, cur =>
    let line := pyStrip l0
    if (str "# ").isPrefixOf line ∧ ¬ (str "##").isPrefixOf line then
      let sect := pyStrip (line.drop 2)
      if cur = some sect then aliasesBody ls cur
      else sectionLine sect :: str "" :: aliasesBody ls (some sect)
    else if (str "alias ").isPrefixOf line then
      let adef := line.drop 6
      if '=' ∈ adef then
        aliasLine (adef.takeWhile (fun c => c ≠ '='))
            (stripChars quoteChars ((adef.dropWhile (fun c => c ≠ '=')).drop 1)) ::
          aliasesBody ls cur
      else aliasesBody ls cur
    else aliasesBody ls cur

/-- `get_aliases` applied to the content of the aliases file: the fixed
header followed by the scanned body, joined by newlines. -/
def get_aliases_output (content : Str) : Str :=
  joinCh '\n'
    ([Colors.BOLD ++ Colors.GREEN ++ str "Available Aliases:" ++ Colors.RESET,
      str ""] ++ aliasesBody (splitCh '\n' content) none)

/-- C5's description of value handling: a single layer of surrounding quote
characters stripped, if present. -/
def stripOneQuoteLayer (s : Str) : Str :=
  if 2 ≤ s.length ∧ s.headD ' ' ∈ quoteChars ∧ s.getLastD ' ' ∈ quoteChars then
    (s.drop 1).dropLast
  else s

/-- The scan as the claim describes it: identical to `aliasesBody` except
that only one layer of surrounding quotes is stripped from the value. -/
def aliasesBodyClaimC5 : List Str → Option Str → List Str
  | [], _ => []
  | l0 :: ls, cur =>
    let line := pyStrip l0
    if (str "# ").isPrefixOf line ∧ ¬ (str "##").isPrefixOf line then
      let sect := pyStrip (line.drop 2)
      if cur = some sect then aliasesBodyClaimC5 ls cur
      else sectionLine sect :: str "" :: aliasesBodyClaimC5 ls (some sect)
    else if (str "alias ").isPrefixOf line then
      let adef := line.drop 6
      if '=' ∈ adef then
        aliasLine (adef.takeWhile (fun c => c ≠ '='))
            (stripOneQuoteLayer ((adef.dropWhile (fun c => c ≠ '=')).drop 1)) ::
          aliasesBodyClaimC5 ls cur
      else aliasesBodyClaimC5 ls cur
    else aliasesBodyClaimC5 ls cur

set_option maxRecDepth 4000 in
/-- C5 counterexample: the code strips every leading and trailing quote
character from the value (`.strip('\'"')`), not a single surrounding layer:
on the line `alias x=''ls''` the code yields command `ls` while the claim's
single-layer stripping yields `'ls'`. -/
theorem C5_counterexample :
    aliasesBody [str "alias x=''ls''"] none ≠
      aliasesBodyClaimC5 [str "alias x=''ls''"] none ∧
    aliasesBody [str "alias x=''ls''"] none = [aliasLine (str "x") (str "ls")] := by
  constructor <;> decide

/-- An event of the alias scan: a section change, or an extracted alias. -/
inductive AliasEvent : Type
  | sec (sect : Str)
  | ali (aname acmd : Str)
deriving DecidableEq

/-- The scan described by the amended claim, as an event stream: a `# `
line (not `##`) whose label differs from the current section emits one
section event; an `alias ` line with `=` is split at the first `=`, the name
trimmed of whitespace, all surrounding quote characters stripped from the
value; alias lines with no `=` are silently skipped. -/
def aliasEvents : List Str → Option Str → List AliasEvent
  | [], _ => []
  | l0 :: ls, cur =>
    let line := pyStrip l0
    if (str "# ").isPrefixOf line ∧ ¬ (str "##").isPrefixOf line then
      let sect := pyStrip (line.drop 2)
      if cur = some sect then aliasEvents ls cur
      else .sec sect :: aliasEvents ls (some sect)
    else if (str "alias ").isPrefixOf line then
      let adef := line.drop 6
      if '=' ∈ adef then
        .ali (pyStrip (adef.takeWhile (fun c => c ≠ '=')))
            (stripChars quoteChars ((adef.dropWhile (fun c => c ≠ '=')).drop 1)) ::
          aliasEvents ls cur
      else aliasEvents ls cur
    else aliasEvents ls cur

/-- Rendering of the event stream: a section event becomes its header line
followed by a blank line (so a changed section is printed exactly once); an
alias event becomes one indented, column-aligned line. -/
def renderAliasEvents : List AliasEvent → List Str
  | [] => []
  | .sec s :: es => sectionLine s :: str "" :: renderAliasEvents es
  | .ali n c :: es =>
    (str "  " ++ Colors.CYAN ++ padTo 15 n ++ Colors.RESET ++ str " " ++ c) ::
      renderAliasEvents es

theorem aliasesBody_eq_render :
    ∀ (ls : List Str) (cur : Option Str),
      aliasesBody ls cur = renderAliasEvents (aliasEvents ls cur)
  | [], _ => rfl
  | l0 :: ls, cur => by
    simp only [aliasesBody, aliasEvents]
    split
    · split
      · exact aliasesBody_eq_render ls cur
      · simp only [renderAliasEvents, aliasesBody_eq_render ls _]
    · split
      · split
        · simp only [renderAliasEvents, aliasLine, aliasesBody_eq_render ls cur]
        · exact aliasesBody_eq_render ls cur
      · exact aliasesBody_eq_render ls cur

set_option maxRecDepth 4000 in
/-- C5 amended: the alias extractor scans lines in order; a `# ` line (not
`##`) establishes the section, printed exactly once when it changes; an
`alias ` line containing `=` is split at the first `=`, the name trimmed of
whitespace and ALL surrounding quote characters stripped from the value
(Python `.strip('\'"')`); alias lines without `=` are skipped.  The line
`alias ll='ls -la'` yields name `ll` and command `ls -la`, and a
`# File Operations` header followed by two alias lines groups both under
that header printed exactly once. -/
theorem C5_alias_extraction :
    (∀ content : Str,
        get_aliases_output content =
          joinCh '\n'
            ([Colors.BOLD ++ Colors.GREEN ++ str "Available Aliases:" ++ Colors.RESET,
              str ""] ++
              renderAliasEvents (aliasEvents (splitCh '\n' content) none))) ∧
    aliasEvents [str "alias ll='ls -la'"] none =
      [.ali (str "ll") (str "ls -la")] ∧
    aliasesBody
        [str "# File Operations", str "alias gs='git status'",
         str "alias ga='git add'"] none =
      [sectionLine (str "File Operations"), str "",
       aliasLine (str "gs") (str "git status"),
       aliasLine (str "ga") (str "git add")] := by
  refine ⟨fun content => ?_, by decide, by decide⟩
  unfold get_aliases_output
  rw [aliasesBody_eq_render]

-- ## Terminal formatter (`format_terminal`)

/-- Python `pat in s`: `pat` occurs as a contiguous substring of `s`. -/
def containsSub (pat : Str) : Str → Bool
  | [] => pat.isPrefixOf []
  | x :: xs => pat.isPrefixOf (x :: xs) || containsSub pat xs

/-- The classification tests of `format_terminal`, indexed in source order:
0-2 heading levels 1-3, 3 fenced code delimiter, 4 shell prompt (`$` or
`sudo` after stripping), 5 bullet markers, 6 numbered list; any other index
never matches. -/
def termRule : Nat → Str → Bool
  | 0, line => (str "# ").isPrefixOf line
  | 1, line => (str "## ").isPrefixOf line
  | 2, line => (str "### ").isPrefixOf line
  | 3, line => (str "```").isPrefixOf line
  | 4, line =>
    (str "$").isPrefixOf (pyStrip line) || (str "sudo").isPrefixOf (pyStrip line)
  | 5, line =>
    (str "- ").isPrefixOf (pyStrip line) || (str "* ").isPrefixOf (pyStrip line) ||
      (str "+ ").isPrefixOf (pyStrip line)
  | 6, line =>
    decide (pyStrip line ≠ []) && (line.headD ' ').isDigit &&
      containsSub (str ". ") line
  | _ + 7, _ => false

/-- The style prepended for each classification index. -/
def termStyle : Nat → Str
  | 0 => Colors.BOLD ++ Colors.YELLOW
  | 1 => Colors.BOLD ++ Colors.CYAN
  | 2 => Colors.BOLD
  | 3 => Colors.PURPLE
  | 4 => Colors.GREEN
  | 5 => Colors.CYAN
  | 6 => Colors.CYAN
  | _ + 7 => []

/-- The styles that can be prepended to a classified line. -/
def termStyleList : List Str :=
  [Colors.BOLD ++ Colors.YELLOW, Colors.BOLD ++ Colors.CYAN, Colors.BOLD,
   Colors.PURPLE, Colors.GREEN, Colors.CYAN]

/-- The per-line body of `format_terminal`: the `elif` chain classifying a
line and wrapping it in color codes, or passing it through unchanged. -/
def formatLine (line : Str) : Str :=
  if (str "# ").isPrefixOf line then
    Colors.BOLD ++ Colors.YELLOW ++ line ++ Colors.RESET
  else if (str "## ").isPrefixOf line then
    Colors.BOLD ++ Colors.CYAN ++ line ++ Colors.RESET
  else if (str "### ").isPrefixOf line then
    Colors.BOLD ++ line ++ Colors.RESET
  else if (str "```").isPrefixOf line then
    Colors.PURPLE ++ line ++ Colors.RESET
  else if (str "$").isPrefixOf (pyStrip line) || (str "sudo").isPrefixOf (pyStrip line) then
    Colors.GREEN ++ line ++ Colors.RESET
  else if (str "- ").isPrefixOf (pyStrip line) || (str "* ").isPrefixOf (pyStrip line) ||
      (str "+ ").isPrefixOf (pyStrip line) then
    Colors.CYAN ++ line ++ Colors.RESET
  else if decide (pyStrip line ≠ []) && (line.headD ' ').isDigit &&
      containsSub (str ". ") line then
    Colors.CYAN ++ line ++ Colors.RESET
  else line

/-- The bordered header of `format_terminal`:
`f"{BOLD}{BLUE}{'='*60}{RESET}"`. -/
def borderLine : Str :=
  Colors.BOLD ++ Colors.BLUE ++ List.replicate 60 '=' ++ Colors.RESET

/-- The `output` list built by `format_terminal`: the bordered header
naming the file, a blank line, then one formatted line per content line. -/
def format_terminal_lines (content name : Str) : List Str :=
  [borderLine, Colors.BOLD ++ Colors.GREEN ++ name ++ Colors.RESET, borderLine,
   str ""] ++ (splitCh '\n' content).map formatLine

/-- `format_terminal`: the joined output. -/
def format_terminal (content name : Str) : Str :=
  joinCh '\n' (format_terminal_lines content name)

theorem formatLine_cases (l : Str) :
    formatLine l = l ∨
      ∃ st ∈ termStyleList, formatLine l = st ++ l ++ Colors.RESET := by
  unfold formatLine
  split
  · exact Or.inr ⟨Colors.BOLD ++ Colors.YELLOW, by simp [termStyleList],
      by simp [List.append_assoc]⟩
  split
  · exact Or.inr ⟨Colors.BOLD ++ Colors.CYAN, by simp [termStyleList],
      by simp [List.append_assoc]⟩
  split
  · exact Or.inr ⟨Colors.BOLD, by simp [termStyleList], by simp [List.append_assoc]⟩
  split
  · exact Or.inr ⟨Colors.PURPLE, by simp [termStyleList], by simp [List.append_assoc]⟩
  split
  · exact Or.inr ⟨Colors.GREEN, by simp [termStyleList], by simp [List.append_assoc]⟩
  split
  · exact Or.inr ⟨Colors.CYAN, by simp [termStyleList], by simp [List.append_assoc]⟩
  split
  · exact Or.inr ⟨Colors.CYAN, by simp [termStyleList], by simp [List.append_assoc]⟩
  · exact Or.inl rfl

/-- C6: each content line receives exactly one classification, tested in
the fixed source priority order (heading levels 1-3, fenced code delimiter,
shell prompt, bullet list, numbered list): when rule `i` is the first test
that matches, the line is wrapped in that rule's fixed style codes, and a
line matching no rule passes through unchanged. -/
theorem C6_terminal_classification :
    (∀ (line : Str) (i : Nat), i < 7 → termRule i line = true →
      (∀ j, j < i → termRule j line = false) →
      formatLine line = termStyle i ++ line ++ Colors.RESET) ∧
    (∀ line : Str, (∀ j, j < 7 → termRule j line = false) →
      formatLine line = line) := by
  constructor
  · intro line i h7 hit hprev
    interval_cases i <;> simp only [termRule] at hit
    · unfold formatLine
      rw [if_pos hit]
      simp [termStyle, List.append_assoc]
    · have e0 := hprev 0 (by omega)
      simp only [termRule] at e0
      have n0 : ¬ ((str "# ").isPrefixOf line = true) := by simp [e0]
      unfold formatLine
      rw [if_neg n0, if_pos hit]
      simp [termStyle, List.append_assoc]
    · have e0 := hprev 0 (by omega)
      have e1 := hprev 1 (by omega)
      simp only [termRule] at e0 e1
      have n0 : ¬ ((str "# ").isPrefixOf line = true) := by simp [e0]
      have n1 : ¬ ((str "## ").isPrefixOf line = true) := by simp [e1]
      unfold formatLine
      rw [if_neg n0, if_neg n1, if_pos hit]
      simp [termStyle, List.append_assoc]
    · have e0 := hprev 0 (by omega)
      have e1 := hprev 1 (by omega)
      have e2 := hprev 2 (by omega)
      simp only [termRule] at e0 e1 e2
      have n0 : ¬ ((str "# ").isPrefixOf line = true) := by simp [e0]
      have n1 : ¬ ((str "## ").isPrefixOf line = true) := by simp [e1]
      have n2 : ¬ ((str "### ").isPrefixOf line = true) := by simp [e2]
      unfold formatLine
      rw [if_neg n0, if_neg n1, if_neg n2, if_pos hit]
      simp [termStyle, List.append_assoc]
    · have e0 := hprev 0 (by omega)
      have e1 := hprev 1 (by omega)
      have e2 := hprev 2 (by omega)
      have e3 := hprev 3 (by omega)
      simp only [termRule] at e0 e1 e2 e3
      have n0 : ¬ ((str "# ").isPrefixOf line = true) := by simp [e0]
      have n1 : ¬ ((str "## ").isPrefixOf line = true) := by simp [e1]
      have n2 : ¬ ((str "### ").isPrefixOf line = true) := by simp [e2]
      have n3 : ¬ ((str "```").isPrefixOf line = true) := by simp [e3]
      unfold formatLine
      rw [if_neg n0, if_neg n1, if_neg n2, if_neg n3, if_pos hit]
      simp [termStyle, List.append_assoc]
    · have e0 := hprev 0 (by omega)
      have e1 := hprev 1 (by omega)
      have e2 := hprev 2 (by omega)
      have e3 := hprev 3 (by omega)
      have e4 := hprev 4 (by omega)
      simp only [termRule] at e0 e1 e2 e3 e4
      have n0 : ¬ ((str "# ").isPrefixOf line = true) := by simp [e0]
      have n1 : ¬ ((str "## ").isPrefixOf line = true) := by simp [e1]
      have n2 : ¬ ((str "### ").isPrefixOf line = true) := by simp [e2]
      have n3 : ¬ ((str "```").isPrefixOf line = true) := by simp [e3]
      have n4 : ¬ (((str "$").isPrefixOf (pyStrip line) ||
          (str "sudo").isPrefixOf (pyStrip line)) = true) := by simp [e4]
      unfold formatLine
      rw [if_neg n0, if_neg n1, if_neg n2, if_neg n3, if_neg n4, if_pos hit]
      simp [termStyle, List.append_assoc]
    · have e0 := hprev 0 (by omega)
      have e1 := hprev 1 (by omega)
      have e2 := hprev 2 (by omega)
      have e3 := hprev 3 (by omega)
      have e4 := hprev 4 (by omega)
      have e5 := hprev 5 (by omega)
      simp only [termRule] at e0 e1 e2 e3 e4 e5
      have n0 : ¬ ((str "# ").isPrefixOf line = true) := by simp [e0]
      have n1 : ¬ ((str "## ").isPrefixOf line = true) := by simp [e1]
      have n2 : ¬ ((str "### ").isPrefixOf line = true) := by simp [e2]
      have n3 : ¬ ((str "```").isPrefixOf line = true) := by simp [e3]
      have n4 : ¬ (((str "$").isPrefixOf (pyStrip line) ||
          (str "sudo").isPrefixOf (pyStrip line)) = true) := by simp [e4]
      have n5 : ¬ (((str "- ").isPrefixOf (pyStrip line) ||
          (str "* ").isPrefixOf (pyStrip line) ||
          (str "+ ").isPrefixOf (pyStrip line)) = true) := by simp [e5]
      unfold formatLine
      rw [if_neg n0, if_neg n1, if_neg n2, if_neg n3, if_neg n4, if_neg n5,
        if_pos hit]
      simp [termStyle, List.append_assoc]
  · intro line hall
    have e0 := hall 0 (by omega)
    have e1 := hall 1 (by omega)
    have e2 := hall 2 (by omega)
    have e3 := hall 3 (by omega)
    have e4 := hall 4 (by omega)
    have e5 := hall 5 (by omega)
    have e6 := hall 6 (by omega)
    simp only [termRule] at e0 e1 e2 e3 e4 e5 e6
    have n0 : ¬ ((str "# ").isPrefixOf line = true) := by simp [e0]
    have n1 : ¬ ((str "## ").isPrefixOf line = true) := by simp [e1]
    have n2 : ¬ ((str "### ").isPrefixOf line = true) := by simp [e2]
    have n3 : ¬ ((str "```").isPrefixOf line = true) := by simp [e3]
    have n4 : ¬ (((str "$").isPrefixOf (pyStrip line) ||
        (str "sudo").isPrefixOf (pyStrip line)) = true) := by simp [e4]
    have n5 : ¬ (((str "- ").isPrefixOf (pyStrip line) ||
        (str "* ").isPrefixOf (pyStrip line) ||
        (str "+ ").isPrefixOf (pyStrip line)) = true) := by simp [e5]
    have n6 : ¬ ((decide (pyStrip line ≠ []) && (line.headD ' ').isDigit &&
        containsSub (str ". ") line) = true) := fun h => by
      rw [h] at e6
      exact absurd e6 (by simp)
    unfold formatLine
    rw [if_neg n0, if_neg n1, if_neg n2, if_neg n3, if_neg n4, if_neg n5,
      if_neg n6]

/-- Witness for `C6_terminal_classification`: a level-2 heading line is
wrapped in bold cyan, and a plain line passes through unchanged. -/
theorem C6_terminal_classification_witness :
    formatLine (str "## Usage") = termStyle 1 ++ str "## Usage" ++ Colors.RESET ∧
    formatLine (str "plain text") = str "plain text" :=
  ⟨C6_terminal_classification.1 (str "## Usage") 1 (by omega) (by decide)
      (fun j hj => by interval_cases j; decide),
   C6_terminal_classification.2 (str "plain text")
      (fun j hj => by interval_cases j <;> decide)⟩

theorem termStyleList_no_newline : ∀ st ∈ termStyleList, '\n' ∉ st := by decide

theorem borderLine_no_newline : '\n' ∉ borderLine := by decide

theorem formatLine_no_newline {l : Str} (h : '\n' ∉ l) :
    '\n' ∉ formatLine l := by
  rcases formatLine_cases l with hc | ⟨st, hst, hc⟩
  · rw [hc]; exact h
  · rw [hc]
    intro hmem
    rcases List.mem_append.mp hmem with h1 | h1
    · rcases List.mem_append.mp h1 with h2 | h2
      · exact termStyleList_no_newline st hst h2
      · exact h h2
    · revert h1; decide

set_option maxRecDepth 4000 in
/-- C10 counterexample: the claim quantifies over every file path, but for
a file name containing a newline (legal on POSIX and reachable via
`--file`) the colored name line itself splits, so the output does not
consist of four header lines followed by one line per input line: with name
`"bad\nname"` and one-line content the output splits into six lines, not
the claimed five. -/
theorem C10_counterexample :
    splitCh '\n' (format_terminal (str "plain") (str "bad\nname")) ≠
      [borderLine,
       Colors.BOLD ++ Colors.GREEN ++ str "bad\nname" ++ Colors.RESET,
       borderLine, str ""] ++
        (splitCh '\n' (str "plain")).map formatLine ∧
    (splitCh '\n' (format_terminal (str "plain") (str "bad\nname"))).length = 6 ∧
    ([borderLine,
      Colors.BOLD ++ Colors.GREEN ++ str "bad\nname" ++ Colors.RESET,
      borderLine, str ""] ++
        (splitCh '\n' (str "plain")).map formatLine).length = 5 := by
  refine ⟨by decide, by decide, by decide⟩

/-- C10 amended: for every content string and every file path whose name
contains no newline character, the terminal formatter preserves line
structure: its output, split on newlines, is exactly the four header lines
(two borders around the colored file name plus one blank line) followed by
one output line per input line, and each output line is either the input
line unchanged or the input line wrapped in one of the fixed ANSI styles
with a reset code appended. -/
theorem C10_format_terminal_lines (content name : Str) (hn : '\n' ∉ name) :
    splitCh '\n' (format_terminal content name) =
      [borderLine, Colors.BOLD ++ Colors.GREEN ++ name ++ Colors.RESET,
       borderLine, str ""] ++ (splitCh '\n' content).map formatLine ∧
    ∀ l ∈ splitCh '\n' content,
      formatLine l = l ∨
        ∃ st ∈ termStyleList, formatLine l = st ++ l ++ Colors.RESET := by
  constructor
  · unfold format_terminal format_terminal_lines
    apply splitCh_joinCh
    · simp
    · intro p hp
      simp only [List.cons_append, List.nil_append, List.mem_cons] at hp
      rcases hp with rfl | rfl | rfl | rfl | hp
      · exact borderLine_no_newline
      · intro hmem
        rcases List.mem_append.mp hmem with h1 | h1
        · rcases List.mem_append.mp h1 with h2 | h2
          · rcases List.mem_append.mp h2 with h3 | h3
            · revert h3; decide
            · revert h3; decide
          · exact hn h2
        · revert h1; decide
      · exact borderLine_no_newline
      · simp [str]
      · rcases List.mem_map.mp hp with ⟨l, hl, rfl⟩
        exact formatLine_no_newline (splitCh_pieces_no_sep '\n' content l hl)
  · intro l _
    exact formatLine_cases l

/-- Witness for `C10_format_terminal_lines` at a concrete content and file
name. -/
theorem C10_format_terminal_lines_witness :
    splitCh '\n' (format_terminal (str "# Title\nplain") (str "README.md")) =
      [borderLine,
       Colors.BOLD ++ Colors.GREEN ++ str "README.md" ++ Colors.RESET,
       borderLine, str ""] ++
        (splitCh '\n' (str "# Title\nplain")).map formatLine :=
  (C10_format_terminal_lines (str "# Title\nplain") (str "README.md")
    (by decide)).1

-- ## Directory Resolver, Output Sink and `main`

/-- The output format selected by `--format`. -/
inductive Fmt : Type
  | terminal
  | html
  | text
deriving DecidableEq

/-- The parsed command-line arguments. -/
structure Args : Type where
  file : Option Str
  aliases : Bool
  format : Fmt
  dir : Option Str
  noPager : Bool

/-- The abstract filesystem: which paths exist and the entry names of each
directory. -/
structure FS : Type where
  pathExists : Str → Bool
  entries : Str → List Str

/-- The process environment seen by the program. -/
structure Env : Type where
  dotfilesDirVar : Option Str
  pagerVar : Option Str
  home : Str
  cwd : Str

/-- `pathlib` path join `d / name`. -/
def joinPath (d name : Str) : Str := d ++ str "/" ++ name

/-- The candidate directories tried by `find_dotfiles_dir`. -/
def dirCandidates (env : Env) : List Str :=
  [joinPath env.home (str ".dotfiles-public"),
   joinPath env.home (str ".dotfiles"), env.cwd]

/-- The candidate loop of `find_dotfiles_dir`: the first candidate that
exists and contains an entry matching `README*`, else the current
directory. -/
def dir_from_candidates (env : Env) (fs : FS) : Str :=
  match (dirCandidates env).find? (fun c =>
      fs.pathExists c && (fs.entries c).any (fun e =>
        (str "README").isPrefixOf e)) with
  | some c => c
  | none => env.cwd

/-- `find_dotfiles_dir`: a non-empty `DOTFILES_DIR` naming an existing path
wins; otherwise the first candidate that exists and contains an entry
matching `README*`; otherwise the current directory. -/
def find_dotfiles_dir (env : Env) (fs : FS) : Str :=
  match env.dotfilesDirVar with
  | some d =>
    if d ≠ [] ∧ fs.pathExists d = true then d else dir_from_candidates env fs
  | none => dir_from_candidates env fs

/-- The documentation directory `main` uses: a truthy (non-empty) `--dir`
value, else the resolver's answer. -/
def resolved_dir (args : Args) (env : Env) (fs : FS) : Str :=
  match args.dir with
  | some d => if d = [] then find_dotfiles_dir env fs else d
  | none => find_dotfiles_dir env fs

/-- The path of the aliases file `get_aliases` reads: the function resolves
its own directory via `find_dotfiles_dir`, never consulting `--dir`. -/
def get_aliases_path (env : Env) (fs : FS) : Str :=
  joinPath (find_dotfiles_dir env fs) (str ".bash_aliases")

/-- The observable outcome of one `main` invocation. -/
structure RunResult : Type where
  exitCode : Nat
  aliasesFileRead : Option Str
  filesShown : Option (List Str)
deriving DecidableEq

/-- The control flow of `main` up to output: directory check first (exit 1
on a missing directory), then the aliases branch, then a `--file` check
(exit 1 on a missing file), then discovery (exit 1 on an empty result);
every other completion returns normally, i.e. exit 0. -/
def main_run (args : Args) (env : Env) (fs : FS) : RunResult :=
  if fs.pathExists (resolved_dir args env fs) = false then
    { exitCode := 1, aliasesFileRead := none, filesShown := none }
  else if args.aliases = true then
    { exitCode := 0, aliasesFileRead := some (get_aliases_path env fs),
      filesShown := none }
  else
    match args.file with
    | some f =>
      if fs.pathExists (joinPath (resolved_dir args env fs) f) = false then
        { exitCode := 1, aliasesFileRead := none, filesShown := none }
      else
        { exitCode := 0, aliasesFileRead := none,
          filesShown := some [joinPath (resolved_dir args env fs) f] }
    | none =>
      if find_doc_files (fs.entries (resolved_dir args env fs)) = [] then
        { exitCode := 1, aliasesFileRead := none, filesShown := none }
      else
        { exitCode := 0, aliasesFileRead := none,
          filesShown := some (find_doc_files (fs.entries (resolved_dir args env fs))) }

/-- C7 counterexample: in aliases mode the program never consults `--file`
and never runs discovery: with `--aliases --file missing.md --dir /d`, `/d`
existing, `/d/missing.md` missing and `/d` containing no documentation
files, the program exits 0, although the claim's conditions (explicitly
named file does not exist; no documentation files are discoverable) demand
exit code 1. -/
theorem C7_counterexample :
    (main_run
        { file := some (str "missing.md"), aliases := true, format := .terminal,
          dir := some (str "/d"), noPager := true }
        { dotfilesDirVar := none, pagerVar := none,
          home := str "/h", cwd := str "/c" }
        { pathExists := fun p => decide (p = str "/d"),
          entries := fun _ => [] }).exitCode = 0 ∧
    decide (joinPath (str "/d") (str "missing.md") = str "/d") = false ∧
    find_doc_files ([] : List Str) = [] := by
  refine ⟨rfl, by decide, rfl⟩

/-- C7 amended: the program exits 1 exactly when the resolved or overridden
directory does not exist (a check made before any file discovery, so the
result then does not depend on any directory contents), or — aliases mode
not selected — when the file explicitly named with `--file` does not exist,
or when no `--file` was given and discovery finds no documentation files;
on every other completion it exits 0. -/
theorem C7_exit_codes (args : Args) (env : Env) (fs : FS) :
    ((main_run args env fs).exitCode = 1 ↔
      fs.pathExists (resolved_dir args env fs) = false ∨
      (args.aliases = false ∧
        ((∃ f, args.file = some f ∧
            fs.pathExists (joinPath (resolved_dir args env fs) f) = false) ∨
         (args.file = none ∧
            find_doc_files (fs.entries (resolved_dir args env fs)) = [])))) ∧
    ((main_run args env fs).exitCode = 0 ∨ (main_run args env fs).exitCode = 1) ∧
    (∀ (d : Str) (ent ent' : Str → List Str),
       args.dir = some d → d ≠ [] → fs.pathExists d = false →
       main_run args env { pathExists := fs.pathExists, entries := ent } =
         main_run args env { pathExists := fs.pathExists, entries := ent' } ∧
       (main_run args env
           { pathExists := fs.pathExists, entries := ent }).exitCode = 1) := by
  refine ⟨?_, ?_, ?_⟩
  · by_cases hd : fs.pathExists (resolved_dir args env fs) = false
    · unfold main_run
      rw [if_pos hd]
      simp [hd]
    · unfold main_run
      rw [if_neg hd]
      by_cases ha : args.aliases = true
      · rw [if_pos ha]
        constructor
        · intro h
          exact absurd h (by simp)
        · rintro (h | h)
          · exact absurd h hd
          · have hfalse := h.1
            rw [ha] at hfalse
            exact absurd hfalse (by simp)
      · have haf : args.aliases = false := by
          cases h : args.aliases
          · rfl
          · exact absurd h ha
        rw [if_neg ha]
        cases hf : args.file with
        | some f =>
          dsimp only
          by_cases hff : fs.pathExists (joinPath (resolved_dir args env fs) f) = false
          · rw [if_pos hff]
            constructor
            · intro _
              exact Or.inr ⟨haf, Or.inl ⟨f, rfl, hff⟩⟩
            · intro _
              rfl
          · rw [if_neg hff]
            constructor
            · intro h
              exact absurd h (by simp)
            · rintro (h | ⟨_, ⟨g, hg, hgf⟩ | ⟨hnone, _⟩⟩)
              · exact absurd h hd
              · injection hg with he
                rw [← he] at hgf
                exact absurd hgf hff
              · exact absurd hnone (by simp)
        | none =>
          dsimp only
          by_cases hnf : find_doc_files (fs.entries (resolved_dir args env fs)) = []
          · rw [if_pos hnf]
            constructor
            · intro _
              exact Or.inr ⟨haf, Or.inr ⟨rfl, hnf⟩⟩
            · intro _
              rfl
          · rw [if_neg hnf]
            constructor
            · intro h
              exact absurd h (by simp)
            · rintro (h | ⟨_, ⟨g, hg, _⟩ | ⟨_, hnf2⟩⟩)
              · exact absurd h hd
              · exact absurd hg (by simp)
              · exact absurd hnf2 hnf
  · unfold main_run
    split
    · exact Or.inr rfl
    · split
      · exact Or.inl rfl
      · split
        · split
          · exact Or.inr rfl
          · exact Or.inl rfl
        · split
          · exact Or.inr rfl
          · exact Or.inl rfl
  · intro d ent ent' hdir hne hmiss
    have hres : ∀ e : Str → List Str,
        resolved_dir args env { pathExists := fs.pathExists, entries := e } = d := by
      intro e
      unfold resolved_dir
      rw [hdir]
      exact if_neg hne
    have hm1 : ({ pathExists := fs.pathExists, entries := ent } : FS).pathExists d
        = false := hmiss
    have hm2 : ({ pathExists := fs.pathExists, entries := ent' } : FS).pathExists d
        = false := hmiss
    constructor
    · unfold main_run
      rw [hres ent, hres ent', if_pos hm1, if_pos hm2]
    · unfold main_run
      rw [hres ent, if_pos hm1]

/-- Witness for `C7_exit_codes`: a run with `--dir` naming a missing
directory exits 1, independently of any directory contents. -/
theorem C7_exit_codes_witness :
    (main_run
        { file := none, aliases := false, format := .terminal,
          dir := some (str "/nodir"), noPager := false }
        { dotfilesDirVar := none, pagerVar := none,
          home := str "/h", cwd := str "/c" }
        { pathExists := fun _ => false, entries := fun _ => [] }).exitCode = 1 :=
  ((C7_exit_codes
      { file := none, aliases := false, format := .terminal,
        dir := some (str "/nodir"), noPager := false }
      { dotfilesDirVar := none, pagerVar := none,
        home := str "/h", cwd := str "/c" }
      { pathExists := fun _ => false, entries := fun _ => [] }).2.2
    (str "/nodir") (fun _ => []) (fun _ => [str "README"]) rfl (by decide) rfl).2

/-- C8 counterexample: with `--aliases --dir /argdir` and `DOTFILES_DIR`
set to the existing `/envdir`, the alias extractor reads
`/envdir/.bash_aliases`, not a file under the `--dir` override, so `--dir`
does not override the Directory Resolver for the alias path. -/
theorem C8_counterexample :
    (main_run
        { file := none, aliases := true, format := .terminal,
          dir := some (str "/argdir"), noPager := true }
        { dotfilesDirVar := some (str "/envdir"), pagerVar := none,
          home := str "/h", cwd := str "/c" }
        { pathExists := fun p => decide (p = str "/argdir") ||
            decide (p = str "/envdir"),
          entries := fun _ => [] }).aliasesFileRead =
      some (joinPath (str "/envdir") (str ".bash_aliases")) ∧
    joinPath (str "/envdir") (str ".bash_aliases") ≠
      joinPath (str "/argdir") (str ".bash_aliases") := by
  constructor
  · rfl
  · decide

/-- C8 amended: a non-empty `--dir <path>` overrides the Directory Resolver
for the documentation-display path (the directory used is exactly the given
path), but the Alias Extractor selected by `--aliases` ignores it and
re-resolves its own directory via `find_dotfiles_dir`, reading
`.bash_aliases` there. -/
theorem C8_dir_override (args : Args) (env : Env) (fs : FS) (p : Str)
    (hp : args.dir = some p) (hne : p ≠ []) :
    resolved_dir args env fs = p ∧
    (args.aliases = true → fs.pathExists p = true →
      (main_run args env fs).aliasesFileRead =
        some (joinPath (find_dotfiles_dir env fs) (str ".bash_aliases"))) := by
  have hres : resolved_dir args env fs = p := by
    unfold resolved_dir
    rw [hp]
    exact if_neg hne
  refine ⟨hres, fun ha hex => ?_⟩
  unfold main_run
  rw [hres, hex]
  rw [if_neg (by simp), if_pos ha]
  rfl

/-- Witness for `C8_dir_override` at a concrete invocation. -/
theorem C8_dir_override_witness :
    resolved_dir
        { file := none, aliases := true, format := .terminal,
          dir := some (str "/argdir"), noPager := true }
        { dotfilesDirVar := some (str "/envdir"), pagerVar := none,
          home := str "/h", cwd := str "/c" }
        { pathExists := fun _ => true, entries := fun _ => [] } =
      str "/argdir" :=
  (C8_dir_override
    { file := none, aliases := true, format := .terminal,
      dir := some (str "/argdir"), noPager := true }
    { dotfilesDirVar := some (str "/envdir"), pagerVar := none,
      home := str "/h", cwd := str "/c" }
    { pathExists := fun _ => true, entries := fun _ => [] }
    (str "/argdir") rfl (by decide)).1

-- ## Output Sink (`display_with_pager` and the display branch of `main`)

/-- The outcome of attempting to run the pager subprocess. -/
inductive PagerOutcome : Type
  | success
  | notFound
  | exitFailure
deriving DecidableEq

/-- What the Output Sink did: the argv of the attempted pager invocation,
if any, and the text printed directly to standard output, if any. -/
structure DisplayResult : Type where
  pagerArgv : Option (List Str)
  printed : Option Str
deriving DecidableEq

/-- The pager command line: `PAGER` (default `less`); `less` gets the
`-R -F -X` options, any other pager is run bare. -/
def pagerArgvOf (pagerVar : Option Str) : List Str :=
  if pagerVar.getD (str "less") = str "less" then
    [pagerVar.getD (str "less"), str "-R", str "-F", str "-X"]
  else [pagerVar.getD (str "less")]

/-- `display_with_pager`: run the pager on the content; a
`FileNotFoundError` or `CalledProcessError` falls back to printing the
content directly. -/
def display_with_pager (pagerVar : Option Str) (outcome : PagerOutcome)
    (content : Str) : DisplayResult :=
  match outcome with
  | .success => { pagerArgv := some (pagerArgvOf pagerVar), printed := none }
  | .notFound =>
    { pagerArgv := some (pagerArgvOf pagerVar), printed := some content }
  | .exitFailure =>
    { pagerArgv := some (pagerArgvOf pagerVar), printed := some content }

/-- The display branch of `main`: HTML always printed directly; `--no-pager`
or a non-terminal format printed directly; otherwise paged. -/
def display_output (fmt : Fmt) (noPager : Bool) (pagerVar : Option Str)
    (outcome : PagerOutcome) (content : Str) : DisplayResult :=
  if fmt = .html then { pagerArgv := none, printed := some content }
  else if noPager = true ∨ fmt ≠ .terminal then
    { pagerArgv := none, printed := some content }
  else display_with_pager pagerVar outcome content

/-- C9: the Output Sink writes directly to standard output whenever the
format is html, paging is disabled by `--no-pager`, or the format is not
terminal — no pager subprocess is attempted and the printed text equals the
formatted content; otherwise it invokes the pager named by `PAGER`
(defaulting to `less`) on the full text, and when the pager is not found or
exits with a failure status it falls back to printing that same content
directly. -/
theorem C9_output_sink (fmt : Fmt) (noPager : Bool) (pagerVar : Option Str)
    (outcome : PagerOutcome) (content : Str) :
    ((fmt = .html ∨ noPager = true ∨ fmt ≠ .terminal) →
      display_output fmt noPager pagerVar outcome content =
        { pagerArgv := none, printed := some content }) ∧
    (¬(fmt = .html ∨ noPager = true ∨ fmt ≠ .terminal) →
      (display_output fmt noPager pagerVar outcome content).pagerArgv =
        some (pagerArgvOf pagerVar) ∧
      (pagerArgvOf pagerVar).headD [] = pagerVar.getD (str "less") ∧
      (outcome = .success →
        (display_output fmt noPager pagerVar outcome content).printed = none) ∧
      (outcome ≠ .success →
        (display_output fmt noPager pagerVar outcome content).printed =
          some content)) := by
  constructor
  · intro h
    unfold display_output
    by_cases hh : fmt = .html
    · rw [if_pos hh]
    · rw [if_neg hh]
      have hnp : noPager = true ∨ fmt ≠ .terminal := by
        rcases h with h | h | h
        · exact absurd h hh
        · exact Or.inl h
        · exact Or.inr h
      rw [if_pos hnp]
  · intro h
    push_neg at h
    obtain ⟨hh, hnp, ht⟩ := h
    have hcond : ¬(noPager = true ∨ fmt ≠ .terminal) := by
      rintro (h1 | h1)
      · exact hnp h1
      · exact h1 ht
    unfold display_output
    rw [if_neg hh, if_neg hcond]
    refine ⟨?_, ?_, ?_, ?_⟩
    · cases outcome <;> rfl
    · unfold pagerArgvOf
      split <;> rfl
    · intro ho
      rw [ho]
      rfl
    · intro ho
      cases outcome with
      | success => exact absurd rfl ho
      | notFound => rfl
      | exitFailure => rfl

/-- Witness for `C9_output_sink`: `--no-pager` prints directly with no
pager attempt, and a terminal-format run whose pager is missing falls back
to printing the content. -/
theorem C9_output_sink_witness :
    display_output .terminal true none .success (str "out") =
      { pagerArgv := none, printed := some (str "out") } ∧
    (display_output .terminal false none .notFound (str "out")).printed =
      some (str "out") :=
  ⟨(C9_output_sink .terminal true none .success (str "out")).1
      (Or.inr (Or.inl rfl)),
   ((C9_output_sink .terminal false none .notFound (str "out")).2
      (by simp)).2.2.2 (by simp)⟩
